import Mathlib

/-!
# Verification of `fritzconnection/lib/fritzhosts.py`

A shallow embedding of the host-enumeration module of fritzconnection.
The module talks to two external collaborators: the action-invocation
transport (`fc.call_action`, reached through `FritzHosts._action`) and the
HTTP/XML retrieval primitives (`fc.session.get`, `get_xml_root`).  Those
collaborators are modelled as explicit oracle parameters; everything else
is translated from the source.

Python dictionaries returned by `call_action` hold dynamically typed
values; we model the dynamic values with `PyValue`.  Failure kinds of the
transport (`FritzArgumentError`, `FritzLookUpError`, `FritzActionError`
and the out-of-range `IndexError` signal) are the constructors of
`FritzError`.  The unbounded `itertools.count()` loops are embedded with
explicit fuel: a result of `none` means the fuel ran out, `some` is the
observable outcome of the Python loop.
-/

set_option autoImplicit false

namespace FritzHosts

instance {ε α : Type} [DecidableEq ε] [DecidableEq α] : DecidableEq (Except ε α) :=
  fun x y =>
    match x, y with
    | .ok a, .ok b =>
      if h : a = b then isTrue (congrArg Except.ok h)
      else isFalse (fun hc => h (by cases hc; rfl))
    | .error a, .error b =>
      if h : a = b then isTrue (congrArg Except.error h)
      else isFalse (fun hc => h (by cases hc; rfl))
    | .ok _, .error _ => isFalse (fun hc => Except.noConfusion hc)
    | .error _, .ok _ => isFalse (fun hc => Except.noConfusion hc)

/-- Dynamic (Python-style) values as they occur in action-result
dictionaries: `none` is Python `None`. -/
inductive PyValue where
  | none
  | bool (b : Bool)
  | int (n : Int)
  | str (s : String)
  deriving DecidableEq, Repr

/-- Python truthiness, as used by `if host["status"]`. -/
def PyValue.truthy : PyValue → Bool
  | .none => false
  | .bool b => b
  | .int n => n != 0
  | .str s => s != ""

/-- Failure kinds of the action transport: `indexError` is the
out-of-range signal (`IndexError`), the others embed
`FritzArgumentError`, `FritzLookUpError` and `FritzActionError` (the
latter carrying its message). -/
inductive FritzError where
  | indexError
  | argumentError
  | lookUpError
  | actionError (message : String)
  deriving DecidableEq, Repr

/-- The result dictionary of a `GetGenericHostEntry` /
`GetSpecificHostEntry` action, restricted to the keys this module
reads. -/
structure GenericHostEntry where
  NewIPAddress : PyValue
  NewHostName : PyValue
  NewMACAddress : PyValue
  NewActive : PyValue
  NewInterfaceType : PyValue
  NewAddressSource : PyValue
  NewLeaseTimeRemaining : PyValue
  deriving DecidableEq, Repr

/-- The dictionary built by `get_hosts_info` for each host. -/
structure HostRecord where
  ip : PyValue
  name : PyValue
  mac : PyValue
  status : PyValue
  interface_type : PyValue
  address_source : PyValue
  lease_time_remaining : PyValue
  deriving DecidableEq, Repr

/-- The key-renaming performed inside the loop of `get_hosts_info`. -/
def host_record_of (host : GenericHostEntry) : HostRecord where
  ip := host.NewIPAddress
  name := host.NewHostName
  mac := host.NewMACAddress
  status := host.NewActive
  interface_type := host.NewInterfaceType
  address_source := host.NewAddressSource
  lease_time_remaining := host.NewLeaseTimeRemaining

/-- Observable outcome of consuming the generator
`get_generic_host_entries`: the records yielded so far, and whether the
generator stopped normally or raised. -/
inductive EnumOutcome (α : Type) where
  | ok (records : List α)
  | error (records : List α) (e : FritzError)
  deriving DecidableEq, Repr

/-- `get_generic_host_entries`, unfolded from a start index with fuel.
`fetch` is the oracle for `get_generic_host_entry` (an action call);
`IndexError` breaks the loop, any other exception propagates after the
records already yielded. -/
def generic_host_entries_from (fetch : Nat → Except FritzError GenericHostEntry) :
    Nat → Nat → Option (EnumOutcome GenericHostEntry)
  | _, 0 => Option.none
  | index, fuel + 1 =>
    match fetch index with
    | .error .indexError => some (.ok [])
    | .error e => some (.error [] e)
    | .ok entry =>
      match generic_host_entries_from fetch (index + 1) fuel with
      | Option.none => Option.none
      | some (.ok rest) => some (.ok (entry :: rest))
      | some (.error rest e) => some (.error (entry :: rest) e)

/-- `FritzHosts.get_generic_host_entries`: the index walk starts at 0. -/
def get_generic_host_entries (fetch : Nat → Except FritzError GenericHostEntry)
    (fuel : Nat) : Option (EnumOutcome GenericHostEntry) :=
  generic_host_entries_from fetch 0 fuel

/-- The loop of `get_hosts_info`, from a start index with fuel.  On
`IndexError` the loop breaks and the collected list is returned; any
other exception propagates and the partial list is lost. -/
def hosts_info_from (fetch : Nat → Except FritzError GenericHostEntry) :
    Nat → Nat → Option (Except FritzError (List HostRecord))
  | _, 0 => Option.none
  | index, fuel + 1 =>
    match fetch index with
    | .error .indexError => some (.ok [])
    | .error e => some (.error e)
    | .ok host =>
      match hosts_info_from fetch (index + 1) fuel with
      | Option.none => Option.none
      | some (.ok rest) => some (.ok (host_record_of host :: rest))
      | some (.error e) => some (.error e)

/-- `FritzHosts.get_hosts_info`. -/
def get_hosts_info (fetch : Nat → Except FritzError GenericHostEntry)
    (fuel : Nat) : Option (Except FritzError (List HostRecord)) :=
  hosts_info_from fetch 0 fuel

/-- `FritzHosts.get_active_hosts`:
`[host for host in self.get_hosts_info() if host["status"]]`. -/
def get_active_hosts (fetch : Nat → Except FritzError GenericHostEntry)
    (fuel : Nat) : Option (Except FritzError (List HostRecord)) :=
  match get_hosts_info fetch fuel with
  | some (.ok hosts) => some (.ok (hosts.filter (fun host => host.status.truthy)))
  | other => other

/-- `FritzHosts.get_host_status`: `lookup` is the oracle for
`get_specific_host_entry` (the by-MAC action call).
`FritzArgumentError` and `FritzLookUpError` are downgraded to `None`;
every other exception propagates; on success the value of
`result["NewActive"]` is returned. -/
def get_host_status (lookup : String → Except FritzError GenericHostEntry)
    (mac_address : String) : Except FritzError PyValue :=
  match lookup mac_address with
  | .error .argumentError => .ok .none
  | .error .lookUpError => .ok .none
  | .error e => .error e
  | .ok result => .ok result.NewActive

/-! ## The `_Host` materializer -/

/-- Conversion failures of Python's `int(...)`: `valueError` for a
non-numeric string, `typeError` for `int(None)`.  The spec groups both
as `ConversionError`. -/
inductive ConversionError where
  | valueError
  | typeError
  deriving DecidableEq, Repr

/-- Strip leading and trailing whitespace, as `int(str)` does. -/
def stripWhitespace (cs : List Char) : List Char :=
  ((cs.dropWhile Char.isWhitespace).reverse.dropWhile Char.isWhitespace).reverse

/-- Numeric value of a digit string. -/
def digitsVal (cs : List Char) : Nat :=
  cs.foldl (fun acc c => acc * 10 + (c.toNat - 48)) 0

/-- Python's `int(s)` on a string: optional whitespace, optional sign,
then at least one digit. -/
def parseIntString (s : String) : Option Int :=
  match stripWhitespace s.toList with
  | [] => Option.none
  | c :: rest =>
    if c = '-' then
      if rest.all Char.isDigit ∧ rest ≠ [] then some (-(digitsVal rest : Int))
      else Option.none
    else if c = '+' then
      if rest.all Char.isDigit ∧ rest ≠ [] then some ((digitsVal rest : Int))
      else Option.none
    else if (c :: rest).all Char.isDigit then some ((digitsVal (c :: rest) : Int))
    else Option.none

/-- Python's `int(value)` for a raw attribute value: `int(None)` raises
`TypeError`, a non-numeric string raises `ValueError`. -/
def python_int : Option String → Except ConversionError Int
  | Option.none => .error .typeError
  | some s =>
    match parseIntString s with
    | some n => .ok n
    | Option.none => .error .valueError

/-- `_Host._int_values`. -/
def _int_values : List String := ["Index", "X_AVM-DE_Port", "X_AVM-DE_Speed"]

/-- `_Host._bool_values`. -/
def _bool_values : List String :=
  ["Active", "X_AVM-DE_UpdateAvailable", "X_AVM-DE_Guest", "X_AVM-DE_VPN",
   "X_AVM-DE_Disallow"]

/-- A `_Host` instance: its `__dict__`, an insertion-ordered mapping
from attribute name to raw value (`none` is Python `None`, `some s` a
string taken from the XML node text). -/
structure _Host where
  dict : List (String × Option String)
  deriving DecidableEq, Repr

/-- First value stored under `name`, if any. -/
def lookupDict : List (String × Option String) → String → Option (Option String)
  | [], _ => Option.none
  | (key, value) :: rest, name =>
    if key = name then some value else lookupDict rest name

/-- Attribute access on a `_Host`.  If the name is present in
`__dict__` the stored value is returned and the instance is unchanged;
otherwise `_Host.__getattr__` runs: it stores `None` under the name
(`setattr(self, attr_name, None)`) and returns it.  The second
component is the instance after the access. -/
def _Host.getattr (host : _Host) (attr_name : String) : Option String × _Host :=
  match lookupDict host.dict attr_name with
  | some value => (value, host)
  | Option.none => (Option.none, ⟨host.dict ++ [(attr_name, Option.none)]⟩)

/-- The per-entry branch of the loop in `_Host.attributes`:
`int(value)` for names in `_int_values`, `bool(int(value))` for names
in `_bool_values`, the raw value otherwise. -/
def coerce_field (name : String) (value : Option String) : Except ConversionError PyValue :=
  if _int_values.contains name then
    (python_int value).map PyValue.int
  else if _bool_values.contains name then
    (python_int value).map (fun n => PyValue.bool (n != 0))
  else
    .ok (match value with
         | Option.none => PyValue.none
         | some s => PyValue.str s)

/-- The loop of `_Host.attributes` over `self.__dict__.items()`: builds
the coerced snapshot in insertion order, raising at the first
non-coercible entry. -/
def attributesList : List (String × Option String) → Except ConversionError (List (String × PyValue))
  | [] => .ok []
  | (name, value) :: rest =>
    match coerce_field name value with
    | .error e => .error e
    | .ok coerced =>
      match attributesList rest with
      | .error e => .error e
      | .ok tail => .ok ((name, coerced) :: tail)

/-- The `_Host.attributes` property. -/
def _Host.attributes (host : _Host) : Except ConversionError (List (String × PyValue)) :=
  attributesList host.dict

/-- `_Host.attributes` with its effect on the instance made explicit:
the property only reads `self.__dict__` (building a fresh local `attrs`
dictionary), so the instance after the call is the instance before it. -/
def _Host.attributesRun (host : _Host) :
    Except ConversionError (List (String × PyValue)) × _Host :=
  (attributesList host.dict, host)

/-! ## The XML bulk path (`_HostStorage`, `get_hosts_attributes`) -/

/-- A parsed XML element: tag name, text content, child elements. -/
inductive XmlNode where
  | mk (tag : String) (text : Option String) (children : List XmlNode)

def XmlNode.tag : XmlNode → String
  | .mk t _ _ => t

def XmlNode.text : XmlNode → Option String
  | .mk _ x _ => x

def XmlNode.children : XmlNode → List XmlNode
  | .mk _ _ c => c

mutual

/-- All nodes of the tree in document (pre-order) order. -/
def XmlNode.preorder : XmlNode → List XmlNode
  | .mk tag text children => .mk tag text children :: preorderList children

def preorderList : List XmlNode → List XmlNode
  | [] => []
  | c :: cs => c.preorder ++ preorderList cs

end

mutual

/-- Modelled from the spec: the `processor`/`Storage` framework (in
`fritzconnection.core.processor`, outside this module) walks the whole
XML document and collects every node matching the designated repeatable
tag `Item` (the class attribute `Item = InstanceAttributeFactory(_Host)`
of `_HostStorage`), in document order, skipping and deduplicating
nothing. -/
def collect_items : XmlNode → List XmlNode
  | .mk tag text children =>
    (if tag = "Item" then [XmlNode.mk tag text children] else []) ++
      collect_items_list children

def collect_items_list : List XmlNode → List XmlNode
  | [] => []
  | c :: cs => collect_items c ++ collect_items_list cs

end

/-- `setattr` on a `__dict__`: overwrite in place if the key exists,
append otherwise. -/
def dictSet (d : List (String × Option String)) (key : String) (value : Option String) :
    List (String × Option String) :=
  if d.any (fun p => p.1 = key) then
    d.map (fun p => if p.1 = key then (key, value) else p)
  else d ++ [(key, value)]

/-- Modelled from the spec: `InstanceAttributeFactory(_Host)` builds one
`_Host` per `Item` node, assigning each child element's text as an
attribute named by the child's tag. -/
def host_of_node (node : XmlNode) : _Host :=
  ⟨node.children.foldl (fun d c => dictSet d c.tag c.text) []⟩

/-- The `_hosts` list collected by `_HostStorage.__init__` from the
parsed XML root. -/
def hostStorageHosts (root : XmlNode) : List _Host :=
  (collect_items root).map host_of_node

/-- The list comprehension of `_HostStorage.hosts_attributes`; a
conversion failure in any `host.attributes` propagates. -/
def hostsAttributesList : List _Host → Except ConversionError (List (List (String × PyValue)))
  | [] => .ok []
  | host :: rest =>
    match host.attributes with
    | .error e => .error e
    | .ok attrs =>
      match hostsAttributesList rest with
      | .error e => .error e
      | .ok tail => .ok (attrs :: tail)

/-- `FritzHosts.get_hosts_attributes`, parameterized by the parsed XML
document: the `X_AVM-DE_GetHostListPath` action call and the
`get_xml_root` retrieval are external collaborators, so the function is
modelled from the storage applied to the fetched root. -/
def get_hosts_attributes (root : XmlNode) :
    Except ConversionError (List (List (String × PyValue))) :=
  hostsAttributesList (hostStorageHosts root)

/-! ## `get_mesh_topology` -/

/-- The part of an HTTP response `get_mesh_topology` inspects. -/
structure HttpResponse where
  status_code : Nat
  body : String
  deriving DecidableEq, Repr

/-- `response.ok` of the requests library: true iff the status code is
below 400. -/
def HttpResponse.ok (r : HttpResponse) : Bool := r.status_code < 400

/-- Result of `get_mesh_topology`: the raw body text (`raw=True`) or
the JSON-parsed structured form of the body (`raw=False`, the parsing
itself being external library code). -/
inductive MeshResult where
  | raw (text : String)
  | parsed (text : String)
  deriving DecidableEq, Repr

/-- `FritzHosts.get_mesh_topology`.  `meshListPath` is the
`NewX_AVM-DE_MeshListPath` field of the `X_AVM-DE_GetMeshListPath`
action result (or the action's failure); `get` is the oracle for
`fc.session.get`. -/
def get_mesh_topology (meshListPath : Except FritzError String)
    (get : String → HttpResponse) (address : String) (port : Nat)
    (raw : Bool) : Except FritzError MeshResult :=
  match meshListPath with
  | .error e => .error e
  | .ok path =>
    let url := address ++ ":" ++ toString port ++ path
    let response := get url
    if !response.ok then
      .error (.actionError
        ("Error " ++ toString response.status_code ++
          ": Device has no access to topology information."))
    else
      .ok (if raw then .raw response.body else .parsed response.body)

/-! ## Concrete fixtures used by the witness theorems -/

def entryActive : GenericHostEntry :=
  ⟨.str "192.168.178.10", .str "pc1", .str "AA:BB:CC:DD:EE:01", .bool true,
   .str "Ethernet", .str "DHCP", .int 3600⟩

def entryInactive : GenericHostEntry :=
  ⟨.str "192.168.178.11", .str "pc2", .str "AA:BB:CC:DD:EE:02", .bool false,
   .str "802.11", .str "DHCP", .int 0⟩

def entryUnset : GenericHostEntry :=
  ⟨.str "192.168.178.12", .str "pc3", .str "AA:BB:CC:DD:EE:03", .none,
   .str "802.11", .str "Static", .int 0⟩

def fetchC1 : Nat → Except FritzError GenericHostEntry := fun i =>
  if i = 0 then .ok entryActive
  else if i = 1 then .ok entryInactive
  else .error .indexError

def entriesC1 : Nat → GenericHostEntry := fun i =>
  if i = 0 then entryActive else entryInactive

def fetchC2 : Nat → Except FritzError GenericHostEntry := fun i =>
  if i = 0 then .ok entryActive else .error .lookUpError

def fetchC3 : Nat → Except FritzError GenericHostEntry := fun i =>
  if i = 0 then .ok entryActive
  else if i = 1 then .ok entryInactive
  else if i = 2 then .ok entryUnset
  else .error .indexError

def lookupC4 : String → Except FritzError GenericHostEntry := fun mac =>
  if mac = "AA:BB:CC:DD:EE:01" then .ok entryActive
  else if mac = "bad-mac" then .error .argumentError
  else if mac = "AA:BB:CC:DD:EE:99" then .error .lookUpError
  else .error (.actionError "service failure")

def getC7fail : String → HttpResponse := fun _ => ⟨500, "no body"⟩

def getC7ok : String → HttpResponse := fun _ => ⟨200, "mesh data"⟩

def rootC9 : XmlNode := .mk "List" Option.none []

def hostC8 : _Host := ⟨[("Active", some "1"), ("HostName", some "pc")]⟩

def hostC10 : _Host := ⟨[("HostName", some "pc")]⟩

/-! ## Helper lemmas about the pagination loops -/

lemma generic_from_stop (fetch : Nat → Except FritzError GenericHostEntry)
    (start fuel : Nat) (h : fetch start = .error .indexError) :
    generic_host_entries_from fetch start (fuel + 1) = some (.ok []) := by
  unfold generic_host_entries_from
  rw [h]

lemma generic_from_fail (fetch : Nat → Except FritzError GenericHostEntry)
    (start fuel : Nat) (err : FritzError) (h : fetch start = .error err)
    (hne : err ≠ .indexError) :
    generic_host_entries_from fetch start (fuel + 1) = some (.error [] err) := by
  unfold generic_host_entries_from
  rw [h]
  rcases err with _ | _ | _ | msg
  · exact absurd rfl hne
  · rfl
  · rfl
  · rfl

lemma generic_from_step (fetch : Nat → Except FritzError GenericHostEntry)
    (start fuel : Nat) (entry : GenericHostEntry) (h : fetch start = .ok entry) :
    generic_host_entries_from fetch start (fuel + 1) =
      match generic_host_entries_from fetch (start + 1) fuel with
      | Option.none => Option.none
      | some (.ok rest) => some (.ok (entry :: rest))
      | some (.error rest e) => some (.error (entry :: rest) e) := by
  conv_lhs => rw [generic_host_entries_from]
  rw [h]

lemma hosts_info_from_stop (fetch : Nat → Except FritzError GenericHostEntry)
    (start fuel : Nat) (h : fetch start = .error .indexError) :
    hosts_info_from fetch start (fuel + 1) = some (.ok []) := by
  unfold hosts_info_from
  rw [h]

lemma hosts_info_from_fail (fetch : Nat → Except FritzError GenericHostEntry)
    (start fuel : Nat) (err : FritzError) (h : fetch start = .error err)
    (hne : err ≠ .indexError) :
    hosts_info_from fetch start (fuel + 1) = some (.error err) := by
  unfold hosts_info_from
  rw [h]
  rcases err with _ | _ | _ | msg
  · exact absurd rfl hne
  · rfl
  · rfl
  · rfl

lemma hosts_info_from_step (fetch : Nat → Except FritzError GenericHostEntry)
    (start fuel : Nat) (host : GenericHostEntry) (h : fetch start = .ok host) :
    hosts_info_from fetch start (fuel + 1) =
      match hosts_info_from fetch (start + 1) fuel with
      | Option.none => Option.none
      | some (.ok rest) => some (.ok (host_record_of host :: rest))
      | some (.error e) => some (.error e) := by
  conv_lhs => rw [hosts_info_from]
  rw [h]

lemma range_map_shift {α : Type} (g : Nat → α) (start n : Nat) :
    (List.range (n + 1)).map (fun i => g (start + i)) =
      g start :: (List.range n).map (fun i => g (start + 1 + i)) := by
  rw [List.range_succ_eq_map, List.map_cons, List.map_map]
  have hhead : g (start + 0) = g start := by rw [Nat.add_zero]
  have htail : List.map ((fun i => g (start + i)) ∘ Nat.succ) (List.range n) =
      List.map (fun i => g (start + 1 + i)) (List.range n) := by
    refine List.map_congr_left (fun i _ => ?_)
    show g (start + (i + 1)) = g (start + 1 + i)
    congr 1
    omega
  rw [hhead, htail]

lemma generic_from_ok (fetch : Nat → Except FritzError GenericHostEntry)
    (e : Nat → GenericHostEntry) :
    ∀ (n start fuel : Nat),
      (∀ i, i < n → fetch (start + i) = .ok (e (start + i))) →
      fetch (start + n) = .error .indexError →
      n < fuel →
      generic_host_entries_from fetch start fuel =
        some (.ok ((List.range n).map (fun i => e (start + i)))) := by
  intro n
  induction n with
  | zero =>
    intro start fuel _ hend hfuel
    obtain ⟨f, rfl⟩ : ∃ f, fuel = f + 1 := ⟨fuel - 1, by omega⟩
    rw [generic_from_stop fetch start f (by simpa using hend)]
    simp
  | succ n ih =>
    intro start fuel hok hend hfuel
    obtain ⟨f, rfl⟩ : ∃ f, fuel = f + 1 := ⟨fuel - 1, by omega⟩
    rw [generic_from_step fetch start f (e start)
      (by simpa using hok 0 (Nat.succ_pos n))]
    rw [ih (start + 1) f
      (fun i hi => by
        have h := hok (i + 1) (by omega)
        rwa [show start + (i + 1) = start + 1 + i by omega] at h)
      (by rw [show start + 1 + n = start + (n + 1) by omega]; exact hend)
      (by omega)]
    rw [range_map_shift e start n]

lemma generic_from_err (fetch : Nat → Except FritzError GenericHostEntry)
    (e : Nat → GenericHostEntry) (err : FritzError) (hne : err ≠ .indexError) :
    ∀ (k start fuel : Nat),
      (∀ i, i < k → fetch (start + i) = .ok (e (start + i))) →
      fetch (start + k) = .error err →
      k < fuel →
      generic_host_entries_from fetch start fuel =
        some (.error ((List.range k).map (fun i => e (start + i))) err) := by
  intro k
  induction k with
  | zero =>
    intro start fuel _ herr hfuel
    obtain ⟨f, rfl⟩ : ∃ f, fuel = f + 1 := ⟨fuel - 1, by omega⟩
    rw [generic_from_fail fetch start f err (by simpa using herr) hne]
    simp
  | succ k ih =>
    intro start fuel hok herr hfuel
    obtain ⟨f, rfl⟩ : ∃ f, fuel = f + 1 := ⟨fuel - 1, by omega⟩
    rw [generic_from_step fetch start f (e start)
      (by simpa using hok 0 (Nat.succ_pos k))]
    rw [ih (start + 1) f
      (fun i hi => by
        have h := hok (i + 1) (by omega)
        rwa [show start + (i + 1) = start + 1 + i by omega] at h)
      (by rw [show start + 1 + k = start + (k + 1) by omega]; exact herr)
      (by omega)]
    rw [range_map_shift e start k]

lemma hosts_from_ok (fetch : Nat → Except FritzError GenericHostEntry)
    (e : Nat → GenericHostEntry) :
    ∀ (n start fuel : Nat),
      (∀ i, i < n → fetch (start + i) = .ok (e (start + i))) →
      fetch (start + n) = .error .indexError →
      n < fuel →
      hosts_info_from fetch start fuel =
        some (.ok ((List.range n).map (fun i => host_record_of (e (start + i))))) := by
  intro n
  induction n with
  | zero =>
    intro start fuel _ hend hfuel
    obtain ⟨f, rfl⟩ : ∃ f, fuel = f + 1 := ⟨fuel - 1, by omega⟩
    rw [hosts_info_from_stop fetch start f (by simpa using hend)]
    simp
  | succ n ih =>
    intro start fuel hok hend hfuel
    obtain ⟨f, rfl⟩ : ∃ f, fuel = f + 1 := ⟨fuel - 1, by omega⟩
    rw [hosts_info_from_step fetch start f (e start)
      (by simpa using hok 0 (Nat.succ_pos n))]
    rw [ih (start + 1) f
      (fun i hi => by
        have h := hok (i + 1) (by omega)
        rwa [show start + (i + 1) = start + 1 + i by omega] at h)
      (by rw [show start + 1 + n = start + (n + 1) by omega]; exact hend)
      (by omega)]
    rw [range_map_shift (fun j => host_record_of (e j)) start n]

lemma hosts_from_err (fetch : Nat → Except FritzError GenericHostEntry)
    (e : Nat → GenericHostEntry) (err : FritzError) (hne : err ≠ .indexError) :
    ∀ (k start fuel : Nat),
      (∀ i, i < k → fetch (start + i) = .ok (e (start + i))) →
      fetch (start + k) = .error err →
      k < fuel →
      hosts_info_from fetch start fuel = some (.error err) := by
  intro k
  induction k with
  | zero =>
    intro start fuel _ herr hfuel
    obtain ⟨f, rfl⟩ : ∃ f, fuel = f + 1 := ⟨fuel - 1, by omega⟩
    exact hosts_info_from_fail fetch start f err (by simpa using herr) hne
  | succ k ih =>
    intro start fuel hok herr hfuel
    obtain ⟨f, rfl⟩ : ∃ f, fuel = f + 1 := ⟨fuel - 1, by omega⟩
    rw [hosts_info_from_step fetch start f (e start)
      (by simpa using hok 0 (Nat.succ_pos k))]
    rw [ih (start + 1) f
      (fun i hi => by
        have h := hok (i + 1) (by omega)
        rwa [show start + (i + 1) = start + 1 + i by omega] at h)
      (by rw [show start + 1 + k = start + (k + 1) by omega]; exact herr)
      (by omega)]

/-! ## Claim theorems -/

/-- C1: if the per-index `GetGenericHostEntry` fetch succeeds at indices
`0 .. n-1` and signals the out-of-range `IndexError` at index `n`, then
`get_generic_host_entries` yields exactly the `n` entries in index order
starting at index 0 and terminates normally, and `get_hosts_info`
returns the `n` renamed records in index order without raising. -/
theorem C1_pagination_yields_exactly_n
    (fetch : Nat → Except FritzError GenericHostEntry) (e : Nat → GenericHostEntry)
    (n fuel : Nat)
    (hok : ∀ i, i < n → fetch i = .ok (e i))
    (hend : fetch n = .error .indexError)
    (hfuel : n < fuel) :
    get_generic_host_entries fetch fuel = some (.ok ((List.range n).map e)) ∧
    get_hosts_info fetch fuel =
      some (.ok ((List.range n).map (fun i => host_record_of (e i)))) ∧
    ((List.range n).map e).length = n := by
  refine ⟨?_, ?_, by simp⟩
  · have h := generic_from_ok fetch e n 0 fuel
      (fun i hi => by simpa using hok i hi) (by simpa using hend) hfuel
    unfold get_generic_host_entries
    simpa using h
  · have h := hosts_from_ok fetch e n 0 fuel
      (fun i hi => by simpa using hok i hi) (by simpa using hend) hfuel
    unfold get_hosts_info
    simpa using h

theorem C1_pagination_yields_exactly_n_witness :
    get_generic_host_entries fetchC1 3 = some (.ok [entryActive, entryInactive]) ∧
    get_hosts_info fetchC1 3 =
      some (.ok [host_record_of entryActive, host_record_of entryInactive]) := by
  have h := C1_pagination_yields_exactly_n fetchC1 entriesC1 2 3
    (by decide) (by decide) (by decide)
  exact ⟨by rw [h.1]; rfl, by rw [h.2.1]; rfl⟩

/-- C2: if the per-index fetch succeeds at indices `0 .. k-1` and fails
at index `k` with any failure other than the out-of-range signal, the
generator yields exactly the `k` records already fetched and then
propagates that failure unchanged (it is not converted into normal
termination, and no record is produced for index `k`), and
`get_hosts_info` propagates the same failure. -/
theorem C2_other_failures_propagate
    (fetch : Nat → Except FritzError GenericHostEntry) (e : Nat → GenericHostEntry)
    (k fuel : Nat) (err : FritzError)
    (hok : ∀ i, i < k → fetch i = .ok (e i))
    (herr : fetch k = .error err)
    (hne : err ≠ .indexError)
    (hfuel : k < fuel) :
    get_generic_host_entries fetch fuel =
      some (.error ((List.range k).map e) err) ∧
    ((List.range k).map e).length = k ∧
    (∀ records, get_generic_host_entries fetch fuel ≠ some (.ok records)) ∧
    get_hosts_info fetch fuel = some (.error err) := by
  have h1 : get_generic_host_entries fetch fuel =
      some (.error ((List.range k).map e) err) := by
    have h := generic_from_err fetch e err hne k 0 fuel
      (fun i hi => by simpa using hok i hi) (by simpa using herr) hfuel
    unfold get_generic_host_entries
    simpa using h
  refine ⟨h1, by simp, ?_, ?_⟩
  · intro records hcontra
    rw [h1] at hcontra
    exact EnumOutcome.noConfusion (Option.some.inj hcontra)
  · have h := hosts_from_err fetch e err hne k 0 fuel
      (fun i hi => by simpa using hok i hi) (by simpa using herr) hfuel
    unfold get_hosts_info
    simpa using h

theorem C2_other_failures_propagate_witness :
    get_generic_host_entries fetchC2 2 =
      some (.error [entryActive] .lookUpError) ∧
    get_hosts_info fetchC2 2 = some (.error .lookUpError) := by
  have h := C2_other_failures_propagate fetchC2 (fun _ => entryActive) 1 2
    .lookUpError (by decide) (by decide) (by decide) (by decide)
  exact ⟨by rw [h.1]; rfl, h.2.2.2⟩

/-- C3: whenever `get_hosts_info` returns a list of records,
`get_active_hosts` returns exactly its truthy-status sublist: every
member has `status == true` (a boolean status of a member is `true`),
every record with `status == false` is excluded, and a record whose
status was never populated (`None`) is excluded without error. -/
theorem C3_active_hosts_subset
    (fetch : Nat → Except FritzError GenericHostEntry) (fuel : Nat)
    (hosts : List HostRecord)
    (h : get_hosts_info fetch fuel = some (.ok hosts)) :
    get_active_hosts fetch fuel =
      some (.ok (hosts.filter (fun r => r.status.truthy))) ∧
    (∀ r ∈ hosts.filter (fun r => r.status.truthy),
       r ∈ hosts ∧ r.status.truthy = true ∧ ∀ b, r.status = .bool b → b = true) ∧
    (∀ r ∈ hosts, r.status = .bool false →
       r ∉ hosts.filter (fun r => r.status.truthy)) ∧
    (∀ r ∈ hosts, r.status = .none →
       r ∉ hosts.filter (fun r => r.status.truthy)) := by
  refine ⟨?_, ?_, ?_, ?_⟩
  · unfold get_active_hosts
    rw [h]
  · intro r hr
    rw [List.mem_filter] at hr
    refine ⟨hr.1, hr.2, fun b hb => ?_⟩
    have ht := hr.2
    rw [hb] at ht
    simpa [PyValue.truthy] using ht
  · intro r _ hst hcontra
    rw [List.mem_filter] at hcontra
    have ht := hcontra.2
    rw [hst] at ht
    simp [PyValue.truthy] at ht
  · intro r _ hst hcontra
    rw [List.mem_filter] at hcontra
    have ht := hcontra.2
    rw [hst] at ht
    simp [PyValue.truthy] at ht

theorem C3_active_hosts_subset_witness :
    get_active_hosts fetchC3 4 = some (.ok [host_record_of entryActive]) ∧
    host_record_of entryInactive ∉
      [host_record_of entryActive, host_record_of entryInactive,
       host_record_of entryUnset].filter (fun r => r.status.truthy) ∧
    host_record_of entryUnset ∉
      [host_record_of entryActive, host_record_of entryInactive,
       host_record_of entryUnset].filter (fun r => r.status.truthy) := by
  have h := C3_active_hosts_subset fetchC3 4
    [host_record_of entryActive, host_record_of entryInactive,
     host_record_of entryUnset] (by decide)
  refine ⟨by rw [h.1]; rfl, ?_, ?_⟩
  · exact h.2.2.1 (host_record_of entryInactive) (by decide) (by decide)
  · exact h.2.2.2 (host_record_of entryUnset) (by decide) (by decide)

/-- C4: `get_host_status` returns the `None` sentinel (not an
exception) when the by-MAC lookup fails with `FritzArgumentError` or
`FritzLookUpError`; on a successful lookup it returns the
`NewActive` flag of the result; any other failure kind propagates
unchanged; and, provided successful lookups carry a boolean flag, the
sentinel is returned exactly when the lookup fails with one of those
two errors. -/
theorem C4_status_unknown_sentinel
    (lookup : String → Except FritzError GenericHostEntry) (mac : String) :
    (lookup mac = .error .argumentError → get_host_status lookup mac = .ok .none) ∧
    (lookup mac = .error .lookUpError → get_host_status lookup mac = .ok .none) ∧
    (∀ r, lookup mac = .ok r → get_host_status lookup mac = .ok r.NewActive) ∧
    (∀ err, lookup mac = .error err → err ≠ .argumentError → err ≠ .lookUpError →
       get_host_status lookup mac = .error err) ∧
    ((∀ r, lookup mac = .ok r → ∃ b, r.NewActive = PyValue.bool b) →
       (get_host_status lookup mac = .ok PyValue.none ↔
         lookup mac = .error .argumentError ∨ lookup mac = .error .lookUpError)) := by
  refine ⟨?_, ?_, ?_, ?_, ?_⟩
  · intro h
    unfold get_host_status
    rw [h]
  · intro h
    unfold get_host_status
    rw [h]
  · intro r h
    unfold get_host_status
    rw [h]
  · intro err h h1 h2
    unfold get_host_status
    rw [h]
    rcases err with _ | _ | _ | msg
    · rfl
    · exact absurd rfl h1
    · exact absurd rfl h2
    · rfl
  · intro hb
    constructor
    · intro hres
      cases h : lookup mac with
      | error err =>
        rcases err with _ | _ | _ | msg
        · unfold get_host_status at hres
          rw [h] at hres
          simp at hres
        · exact Or.inl rfl
        · exact Or.inr rfl
        · unfold get_host_status at hres
          rw [h] at hres
          simp at hres
      | ok r =>
        obtain ⟨b, hbb⟩ := hb r h
        unfold get_host_status at hres
        rw [h] at hres
        simp [hbb] at hres
    · intro hor
      rcases hor with h | h
      · unfold get_host_status
        rw [h]
      · unfold get_host_status
        rw [h]

theorem C4_status_unknown_sentinel_witness :
    get_host_status lookupC4 "bad-mac" = .ok .none ∧
    get_host_status lookupC4 "AA:BB:CC:DD:EE:99" = .ok .none ∧
    get_host_status lookupC4 "AA:BB:CC:DD:EE:01" = .ok (.bool true) ∧
    get_host_status lookupC4 "other" = .error (.actionError "service failure") := by
  refine ⟨(C4_status_unknown_sentinel lookupC4 "bad-mac").1 (by decide),
    (C4_status_unknown_sentinel lookupC4 "AA:BB:CC:DD:EE:99").2.1 (by decide),
    ?_, ?_⟩
  · exact (C4_status_unknown_sentinel lookupC4 "AA:BB:CC:DD:EE:01").2.2.1
      entryActive (by decide)
  · exact (C4_status_unknown_sentinel lookupC4 "other").2.2.2.1
      (.actionError "service failure") (by decide) (by decide) (by decide)

/-- C5: a boolean-typed field (`Active`) holding the raw text
`"maybe"` makes the `attributes` snapshot fail with a conversion error
(`ValueError` from `int("maybe")`); raw `"1"` coerces to `true` and raw
`"0"` to `false`; and in general boolean coercion parses the raw value
as an integer and maps 0 to `false`, any non-zero integer to `true`. -/
theorem C5_bool_coercion_parses_int :
    _Host.attributes ⟨[("Active", some "maybe")]⟩ = .error .valueError ∧
    _Host.attributes ⟨[("Active", some "1")]⟩ = .ok [("Active", .bool true)] ∧
    _Host.attributes ⟨[("Active", some "0")]⟩ = .ok [("Active", .bool false)] ∧
    (∀ name value n, name ∈ _bool_values → python_int value = .ok n →
       coerce_field name value = .ok (.bool (n != 0))) := by
  refine ⟨by rfl, by rfl, by rfl, ?_⟩
  intro name value n hmem hpi
  fin_cases hmem <;>
    (show (python_int value).map (fun m => PyValue.bool (m != 0)) = _
     rw [hpi]
     rfl)

theorem C5_bool_coercion_parses_int_witness :
    coerce_field "Active" (some "5") = .ok (.bool true) := by
  exact (C5_bool_coercion_parses_int).2.2.2 "Active" (some "5") 5
    (by decide) (by decide)

/-- C6 counterexample: probing a never-populated integer-typed or
boolean-typed attribute succeeds and returns the unset default `None`,
but that default does not coerce to `0` / `false`: `int(None)` raises
`TypeError`, so the coercion — and an `attributes` snapshot taken after
the probe — fails instead of defaulting. -/
theorem C6_default_coercion_counterexample :
    (_Host.getattr ⟨[]⟩ "Index").1 = Option.none ∧
    (_Host.getattr ⟨[]⟩ "Index").2 = ⟨[("Index", Option.none)]⟩ ∧
    coerce_field "Index" Option.none = .error .typeError ∧
    coerce_field "Index" Option.none ≠ .ok (.int 0) ∧
    coerce_field "Active" Option.none = .error .typeError ∧
    coerce_field "Active" Option.none ≠ .ok (.bool false) ∧
    _Host.attributes (_Host.getattr ⟨[]⟩ "Index").2 = .error .typeError := by
  decide

/-- C6 (amended): querying an attribute name never present on the
instance succeeds without raising and returns the unset default `None`
for every name; for names outside the integer/boolean sets the default
passes through coercion as the unset value; for integer-typed and
boolean-typed names the unset default does not coerce to `0` / `false`
but fails with a conversion (`TypeError`) error. -/
theorem C6_missing_field_default
    (host : _Host) (name : String)
    (hmiss : lookupDict host.dict name = Option.none) :
    (host.getattr name).1 = Option.none ∧
    (name ∉ _int_values → name ∉ _bool_values →
       coerce_field name Option.none = .ok PyValue.none) ∧
    (name ∈ _int_values ∨ name ∈ _bool_values →
       coerce_field name Option.none = .error .typeError) := by
  refine ⟨?_, ?_, ?_⟩
  · unfold _Host.getattr
    rw [hmiss]
  · intro h1 h2
    unfold coerce_field
    rw [if_neg (by simpa using h1), if_neg (by simpa using h2)]
  · intro h
    rcases h with h | h <;> fin_cases h <;> rfl

theorem C6_missing_field_default_witness :
    (_Host.getattr ⟨[("HostName", some "pc")]⟩ "X_AVM-DE_Model").1 = Option.none ∧
    coerce_field "X_AVM-DE_Model" Option.none = .ok PyValue.none ∧
    (_Host.getattr ⟨[("HostName", some "pc")]⟩ "X_AVM-DE_Speed").1 = Option.none ∧
    coerce_field "X_AVM-DE_Speed" Option.none = .error .typeError := by
  have h1 := C6_missing_field_default ⟨[("HostName", some "pc")]⟩
    "X_AVM-DE_Model" (by decide)
  have h2 := C6_missing_field_default ⟨[("HostName", some "pc")]⟩
    "X_AVM-DE_Speed" (by decide)
  exact ⟨h1.1, h1.2.1 (by decide) (by decide), h2.1, h2.2.2 (Or.inl (by decide))⟩

/-- C7: when the mesh-topology HTTP fetch returns a non-success
response, `get_mesh_topology` fails with a `FritzActionError` whose
message embeds the HTTP status code; on a success response it returns
the raw body text for `raw=True` and the parsed structured form of the
body for `raw=False`. -/
theorem C7_mesh_topology_http_status
    (path address : String) (port : Nat) (get : String → HttpResponse) (raw : Bool) :
    (HttpResponse.ok (get (address ++ ":" ++ toString port ++ path)) = false →
       get_mesh_topology (.ok path) get address port raw =
         .error (.actionError ("Error " ++
           toString (get (address ++ ":" ++ toString port ++ path)).status_code ++
           ": Device has no access to topology information.")) ∧
       ∃ pre post,
         "Error " ++
             toString (get (address ++ ":" ++ toString port ++ path)).status_code ++
             ": Device has no access to topology information." =
           pre ++ toString (get (address ++ ":" ++ toString port ++ path)).status_code
             ++ post) ∧
    (HttpResponse.ok (get (address ++ ":" ++ toString port ++ path)) = true →
       get_mesh_topology (.ok path) get address port true =
         .ok (.raw (get (address ++ ":" ++ toString port ++ path)).body) ∧
       get_mesh_topology (.ok path) get address port false =
         .ok (.parsed (get (address ++ ":" ++ toString port ++ path)).body)) := by
  constructor
  · intro hfail
    constructor
    · simp [get_mesh_topology, hfail]
    · exact ⟨"Error ", ": Device has no access to topology information.", rfl⟩
  · intro hok
    constructor <;> simp [get_mesh_topology, hok]

theorem C7_mesh_topology_http_status_witness :
    get_mesh_topology (.ok "/meshlist.lua") getC7fail "192.168.178.1" 49000 false =
      .error (.actionError
        "Error 500: Device has no access to topology information.") ∧
    get_mesh_topology (.ok "/meshlist.lua") getC7ok "192.168.178.1" 49000 true =
      .ok (.raw "mesh data") ∧
    get_mesh_topology (.ok "/meshlist.lua") getC7ok "192.168.178.1" 49000 false =
      .ok (.parsed "mesh data") := by
  have h1 := (C7_mesh_topology_http_status "/meshlist.lua" "192.168.178.1" 49000
    getC7fail false).1 (by decide)
  have h2 := (C7_mesh_topology_http_status "/meshlist.lua" "192.168.178.1" 49000
    getC7ok false).2 (by decide)
  exact ⟨h1.1, h2.1, h2.2⟩

/-- C8: taking the coerced `attributes` snapshot does not mutate the
stored raw attribute values, and reading it twice in a row yields the
same typed values both times. -/
theorem C8_attributes_read_idempotent (host : _Host) :
    host.attributesRun.2 = host ∧
    (host.attributesRun.2).attributesRun.1 = host.attributesRun.1 ∧
    (host.attributesRun.2).attributes = host.attributes ∧
    (∀ attrs₁ attrs₂, host.attributesRun.1 = .ok attrs₁ →
       (host.attributesRun.2).attributesRun.1 = .ok attrs₂ → attrs₁ = attrs₂) := by
  refine ⟨rfl, rfl, rfl, ?_⟩
  intro attrs₁ attrs₂ h1 h2
  have h2' : host.attributesRun.1 = .ok attrs₂ := h2
  rw [h1] at h2'
  exact Except.ok.inj h2'

theorem C8_attributes_read_idempotent_witness :
    hostC8.attributesRun.2 = hostC8 ∧
    hostC8.attributesRun.1 = .ok [("Active", .bool true), ("HostName", .str "pc")] ∧
    (hostC8.attributesRun.2).attributesRun.1 =
      .ok [("Active", .bool true), ("HostName", .str "pc")] := by
  have h := C8_attributes_read_idempotent hostC8
  refine ⟨h.1, by decide, ?_⟩
  rw [h.2.1]
  decide

/-! ## Helper lemmas for the XML bulk path and the materializer state -/

mutual

theorem collect_items_eq (n : XmlNode) :
    collect_items n = (XmlNode.preorder n).filter (fun m => m.tag == "Item") := by
  cases n with
  | mk tag text children =>
    simp only [collect_items, XmlNode.preorder, List.filter_cons]
    rw [collect_items_list_eq children]
    by_cases h : tag = "Item"
    · subst h
      simp [XmlNode.tag]
    · simp [XmlNode.tag, h]

theorem collect_items_list_eq (l : List XmlNode) :
    collect_items_list l = (preorderList l).filter (fun m => m.tag == "Item") := by
  cases l with
  | nil => simp [collect_items_list, preorderList]
  | cons c cs =>
    simp only [collect_items_list, preorderList, List.filter_append]
    rw [collect_items_eq c, collect_items_list_eq cs]

end

lemma attributesList_keys :
    ∀ (l : List (String × Option String)) (r : List (String × PyValue)),
      attributesList l = .ok r → r.map Prod.fst = l.map Prod.fst := by
  intro l
  induction l with
  | nil =>
    intro r h
    injection h with h'
    subst h'
    rfl
  | cons p rest ih =>
    intro r h
    obtain ⟨name, v⟩ := p
    simp only [attributesList] at h
    cases hc : coerce_field name v with
    | error e =>
      rw [hc] at h
      exact absurd h (by simp)
    | ok pv =>
      rw [hc] at h
      cases hr : attributesList rest with
      | error e =>
        rw [hr] at h
        exact absurd h (by simp)
      | ok tail =>
        rw [hr] at h
        injection h with h'
        subst h'
        simp [ih tail hr]

lemma attributesList_append (l₁ l₂ : List (String × Option String)) :
    attributesList (l₁ ++ l₂) =
      match attributesList l₁ with
      | .error e => .error e
      | .ok r₁ =>
        match attributesList l₂ with
        | .error e => .error e
        | .ok r₂ => .ok (r₁ ++ r₂) := by
  induction l₁ with
  | nil =>
    simp only [List.nil_append]
    cases h2 : attributesList l₂ <;> simp [attributesList, h2]
  | cons p rest ih =>
    obtain ⟨n0, v0⟩ := p
    simp only [List.cons_append, attributesList, List.append_eq]
    rw [ih]
    cases hc : coerce_field n0 v0 <;>
      cases h1 : attributesList rest <;>
        cases h2 : attributesList l₂ <;> rfl

lemma lookupDict_none_not_mem :
    ∀ (l : List (String × Option String)) (name : String),
      lookupDict l name = Option.none → name ∉ l.map Prod.fst := by
  intro l name
  induction l with
  | nil =>
    intro _ hmem
    simp at hmem
  | cons p rest ih =>
    obtain ⟨k, v⟩ := p
    intro h hmem
    simp only [lookupDict] at h
    by_cases hk : k = name
    · rw [if_pos hk] at h
      exact Option.noConfusion h
    · rw [if_neg hk] at h
      rcases List.mem_cons.1 hmem with hx | hx
      · exact hk (by simpa using hx.symm)
      · exact ih h hx

lemma attributesList_single_none_typed (name : String)
    (h : name ∈ _int_values ∨ name ∈ _bool_values) :
    attributesList [(name, Option.none)] = .error .typeError := by
  rcases h with h | h <;> fin_cases h <;> rfl

lemma attributesList_single_none_untyped (name : String)
    (h1 : name ∉ _int_values) (h2 : name ∉ _bool_values) :
    attributesList [(name, Option.none)] = .ok [(name, PyValue.none)] := by
  have hc : coerce_field name Option.none = .ok PyValue.none := by
    unfold coerce_field
    rw [if_neg (by simpa using h1), if_neg (by simpa using h2)]
  simp only [attributesList]
  rw [hc]

/-- C9: the bulk extraction path builds one `_Host` per `Item` node of
the parsed document, in document order, with no node skipped or
deduplicated; a document with zero `Item` nodes yields the empty
sequence, not an error. -/
theorem C9_bulk_extraction_document_order (root : XmlNode) :
    collect_items root = (XmlNode.preorder root).filter (fun m => m.tag == "Item") ∧
    hostStorageHosts root =
      ((XmlNode.preorder root).filter (fun m => m.tag == "Item")).map host_of_node ∧
    (hostStorageHosts root).length =
      ((XmlNode.preorder root).filter (fun m => m.tag == "Item")).length ∧
    ((XmlNode.preorder root).filter (fun m => m.tag == "Item") = [] →
      get_hosts_attributes root = .ok []) := by
  have h := collect_items_eq root
  refine ⟨h, ?_, ?_, ?_⟩
  · unfold hostStorageHosts
    rw [h]
  · unfold hostStorageHosts
    rw [h]
    simp
  · intro hempty
    unfold get_hosts_attributes hostStorageHosts
    rw [h, hempty]
    rfl

theorem C9_bulk_extraction_document_order_witness :
    get_hosts_attributes rootC9 = .ok [] ∧
    (XmlNode.preorder rootC9).filter (fun m => m.tag == "Item") = [] := by
  have h := C9_bulk_extraction_document_order rootC9
  exact ⟨h.2.2.2 (by rfl), by rfl⟩

/-- C10: accessing a never-populated attribute is not side-effect free:
`__getattr__` permanently stores the name with the unset value `None`,
so the name appears in every later successful `attributes` snapshot; in
particular, probing an unset integer-typed or boolean-typed name makes
a later `attributes` call fail with a conversion (`TypeError`) error,
and probing an untyped name extends the snapshot's key set. -/
theorem C10_getattr_probe_mutates (host : _Host) (name : String)
    (hmiss : lookupDict host.dict name = Option.none) :
    (host.getattr name).1 = Option.none ∧
    (host.getattr name).2.dict = host.dict ++ [(name, Option.none)] ∧
    (∀ attrs, _Host.attributes (host.getattr name).2 = .ok attrs →
       name ∈ attrs.map Prod.fst) ∧
    (∀ attrs₀, _Host.attributes host = .ok attrs₀ →
       name ∉ attrs₀.map Prod.fst ∧
       ((name ∈ _int_values ∨ name ∈ _bool_values) →
          _Host.attributes (host.getattr name).2 = .error .typeError) ∧
       (name ∉ _int_values → name ∉ _bool_values →
          _Host.attributes (host.getattr name).2 =
            .ok (attrs₀ ++ [(name, PyValue.none)]))) := by
  have hget : host.getattr name =
      (Option.none, ⟨host.dict ++ [(name, Option.none)]⟩) := by
    unfold _Host.getattr
    rw [hmiss]
  have hdict : (host.getattr name).2.dict = host.dict ++ [(name, Option.none)] := by
    rw [hget]
  refine ⟨by rw [hget], hdict, ?_, ?_⟩
  · intro attrs h
    have h' : attributesList ((host.getattr name).2.dict) = .ok attrs := h
    rw [hdict] at h'
    have hk := attributesList_keys _ attrs h'
    rw [hk]
    simp
  · intro attrs₀ h0
    have h0' : attributesList host.dict = .ok attrs₀ := h0
    refine ⟨?_, ?_, ?_⟩
    · have hk0 := attributesList_keys _ attrs₀ h0'
      rw [hk0]
      exact lookupDict_none_not_mem _ _ hmiss
    · intro htyped
      show attributesList ((host.getattr name).2.dict) = .error .typeError
      rw [hdict, attributesList_append, h0',
        attributesList_single_none_typed name htyped]
    · intro h1 h2
      show attributesList ((host.getattr name).2.dict) =
        .ok (attrs₀ ++ [(name, PyValue.none)])
      rw [hdict, attributesList_append, h0',
        attributesList_single_none_untyped name h1 h2]

theorem C10_getattr_probe_mutates_witness :
    (hostC10.getattr "Active").1 = Option.none ∧
    (hostC10.getattr "Active").2.dict =
      [("HostName", some "pc"), ("Active", Option.none)] ∧
    _Host.attributes hostC10 = .ok [("HostName", .str "pc")] ∧
    _Host.attributes (hostC10.getattr "Active").2 = .error .typeError := by
  have h := C10_getattr_probe_mutates hostC10 "Active" (by decide)
  refine ⟨h.1, by rw [h.2.1]; rfl, by decide, ?_⟩
  exact (h.2.2.2 [("HostName", .str "pc")] (by decide)).2.1 (Or.inr (by decide))

end FritzHosts
